import Mathlib

/-!
Verification of the node-mqtt-shell session tunneling core.

The definitions below are a shallow embedding of the JavaScript sources:
`src/lib/target.js` (target role) and the master role source (WS server +
MQTT bridge).  Pure functions become Lean functions; the stateful event
handlers become explicit state-passing functions returning the successor
state together with the list of externally visible actions they perform
(log, spawn, publish, subscribe, ...).  A handler that lets an exception
escape (the sources never catch `JSON.parse` errors) is modelled as an
`Option`-valued function returning `none`.
-/

namespace MqttShell

/-! ### Packet codec and Sequencer

Wire unit on the data topics: a JSON object with a sequence number and a
data payload (`{seq, data}`), see `target.js` lines 246-253 and the
receive loops at `target.js` lines 227-244 / master lines 281-298. -/

/-- A data packet `{seq, data}` as published on the `in`/`out` topics. -/
structure Packet where
  seq : Nat
  data : String
deriving DecidableEq, Repr

/-- Receive-side sequencer state: the next expected sequence number
(`seqIn` resp. `seqOut` in the sources, starting at 0) and the reorder
buffer (`bufferIn` resp. `bufferOut`, a JS array). -/
structure SeqState where
  next : Nat
  buffer : List Packet
deriving DecidableEq, Repr

/-- Initial sequencer state: `let seqIn = 0; let bufferIn = [];` -/
def initSeqState : SeqState := ⟨0, []⟩

/-- Insert a packet into a list, after all entries whose `seq` is less
than or equal to the packet's own.  Used by `sortPackets` below. -/
def insertSorted (p : Packet) : List Packet → List Packet
  | [] => [p]
  | q :: qs => if q.seq ≤ p.seq then q :: insertSorted p qs else p :: q :: qs

/-- Model of `buffer.sort((p1, p2) => p1.seq - p2.seq)`: a stable sort of
the buffer in ascending `seq` order (JS `Array.prototype.sort` is stable;
insertion from the left keeps equal keys in their original order). -/
def sortPackets (l : List Packet) : List Packet :=
  l.foldl (fun acc q => insertSorted q acc) []

/-- Model of the delivery loop
`while (buffer.length && buffer[0].seq === seq) { sink(buffer.shift().data); ++seq; }`.
Returns the final counter, the remaining buffer and the data values
handed to the local sink, in order. -/
def drain : Nat → List Packet → Nat × List Packet × List String
  | n, [] => (n, [], [])
  | n, q :: qs =>
    if q.seq = n then
      let r := drain (n + 1) qs
      (r.1, r.2.1, q.data :: r.2.2)
    else (n, q :: qs, [])

/-- One call of the receive handler (`shell.onMessage` in `target.js`
lines 231-244, `onMessage` in the master source lines 285-298) on a
packet that already passed the topic check and `JSON.parse`:
push into the buffer, sort by `seq`, then run the delivery loop.
Returns the successor state and the data delivered to the sink. -/
def onReceive (st : SeqState) (p : Packet) : SeqState × List String :=
  let buf := sortPackets (st.buffer ++ [p])
  let r := drain st.next buf
  (⟨r.1, r.2.1⟩, r.2.2)

/-- Feed a list of packets to `onReceive` one after the other,
concatenating everything delivered to the sink. -/
def runSeq : SeqState → List Packet → SeqState × List String
  | st, [] => (st, [])
  | st, p :: ps =>
    let r := onReceive st p
    let r2 := runSeq r.1 ps
    (r2.1, r.2 ++ r2.2)

example : (runSeq initSeqState [⟨2, "c"⟩, ⟨1, "b"⟩, ⟨0, "a"⟩]).2 = ["a", "b", "c"] := by
  decide

example : (runSeq initSeqState [⟨0, "a"⟩, ⟨0, "a"⟩, ⟨1, "b"⟩]).2 = ["a"] := by
  decide

/-! ### Identifier validation

`PATTERN_UUID = '[0-9a-f]{8}(-[0-9a-f]{4}){3}-[0-9a-f]{12}'` (target.js
line 11, master source line 81), used through ajv's `pattern` keyword,
whose regexes are not anchored: a string is valid when the pattern
matches at some position inside it. -/

/-- The character class `[0-9a-f]`. -/
def isHexLower (c : Char) : Bool :=
  (('0' ≤ c) && (c ≤ '9')) || (('a' ≤ c) && (c ≤ 'f'))

/-- Consume exactly `n` lowercase hex digits, returning the rest. -/
def hexRun : Nat → List Char → Option (List Char)
  | 0, l => some l
  | _ + 1, [] => none
  | n + 1, c :: l => if isHexLower c then hexRun n l else none

/-- Consume a literal hyphen. -/
def hyphen : List Char → Option (List Char)
  | '-' :: l => some l
  | _ => none

/-- Match `PATTERN_UUID` at the start of the character list, returning
the characters left over after the match. -/
def uuidChain (l : List Char) : Option (List Char) :=
  (((((((hexRun 8 l).bind hyphen).bind (hexRun 4)).bind hyphen).bind
    (hexRun 4)).bind hyphen).bind (hexRun 4)).bind hyphen |>.bind (hexRun 12)

/-- Does `PATTERN_UUID` match at the start? -/
def uuidAt (l : List Char) : Bool := (uuidChain l).isSome

/-- ajv `pattern` semantics (unanchored): does `PATTERN_UUID` match at
some position of the list? -/
def uuidSearch : List Char → Bool
  | [] => uuidAt []
  | c :: l => uuidAt (c :: l) || uuidSearch l

/-- Modelled from the spec: a "UUID-shaped" identifier in the spec's
sense, i.e. the whole string matches the UUID pattern.  This is the
spec-side comparison point for the code's unanchored check. -/
def uuidShapedSpec (s : String) : Bool :=
  match uuidChain s.data with
  | some [] => true
  | _ => false

example : uuidShapedSpec "11111111-1111-1111-1111-111111111111" = true := by decide

example : uuidSearch "zz11111111-1111-1111-1111-111111111111zz".data = true := by decide

example : uuidShapedSpec "zz11111111-1111-1111-1111-111111111111zz" = false := by decide

/-! ### JSON values and message payloads -/

/-- Minimal model of a parsed JSON value: exactly what the handlers and
validators inspect (strings, objects with named fields, anything else). -/
inductive JValue where
  | jstr (s : String)
  | jobj (fields : List (String × JValue))
  | jother

/-- JS property access `obj.key` on a parsed object literal. -/
def lookupField (fields : List (String × JValue)) (k : String) : Option JValue :=
  (fields.find? (fun f => decide (f.1 = k))).map (fun f => f.2)

/-- Property access on an arbitrary value (`undefined` is `none`). -/
def jget (v : JValue) (k : String) : Option JValue :=
  match v with
  | .jobj fields => lookupField fields k
  | _ => none

/-- A raw MQTT message payload: either not valid JSON, or valid JSON
parsing to the given value. -/
inductive WireMsg where
  | invalid
  | value (v : JValue)

/-- Model of `JSON.parse`: `none` when the payload is not valid JSON
(in JS the parse throws, and no handler in the sources catches it). -/
def parseJson : WireMsg → Option JValue
  | .invalid => none
  | .value v => some v

/-- The ajv validator compiled from the `create`/`remove` schema
(`VALIDATOR_CREATE`/`VALIDATOR_REMOVE`, target.js lines 40-58): the value
must be an object, and the `id` property, when present, must be a string
matching the unanchored `PATTERN_UUID`.  The schema declares no required
properties, so an object without `id` is valid. -/
def validCtrl : JValue → Bool
  | .jobj fields =>
    match lookupField fields "id" with
    | none => true
    | some (.jstr s) => uuidSearch s.data
    | some _ => false
  | _ => false

/-- The `params.id` read after validation.  When `id` is absent JS reads
`undefined`, which stringifies to "undefined" in Map keys and template
strings; the model uses that rendering. -/
def idParam (v : JValue) : String :=
  match jget v "id" with
  | some (.jstr s) => s
  | _ => "undefined"

/-! ### Topic namespace (target.js lines 181-184 and 214-216; the master
derives the same strings for the requested target, lines 256-264) -/

/-- Target configuration: topic prefix (`args.prefix`) and target
identifier (`args.id`). -/
structure TargetCfg where
  pfx : String
  targetId : String
deriving DecidableEq, Repr

/-- `const topic = args.prefix + args.id` -/
def topicBase (c : TargetCfg) : String := c.pfx ++ c.targetId

def topicList (c : TargetCfg) : String := topicBase c ++ "/list"

def topicCreate (c : TargetCfg) : String := topicBase c ++ "/create"

def topicRemove (c : TargetCfg) : String := topicBase c ++ "/remove"

def topicTty (c : TargetCfg) (id : String) : String := topicBase c ++ "/" ++ id

def topicTtyIn (c : TargetCfg) (id : String) : String := topicTty c id ++ "/in"

def topicTtyOut (c : TargetCfg) (id : String) : String := topicTty c id ++ "/out"

/-- The six topic strings derived from a `(targetId, sessionId)` pair
under a fixed prefix. -/
def topicsOf (P T S : String) : List String :=
  [topicBase ⟨P, T⟩, topicList ⟨P, T⟩, topicCreate ⟨P, T⟩, topicRemove ⟨P, T⟩,
    topicTtyIn ⟨P, T⟩ S, topicTtyOut ⟨P, T⟩ S]

/-! ### Target role: session registry and controller (target.js) -/

/-- Structured view of the JSON payloads the two roles publish. -/
inductive Payload where
  | listIds (ids : List String)
  | ctrl (id : String)
  | packet (p : Packet)
deriving DecidableEq, Repr

/-- Externally visible actions of the target-role handlers. -/
inductive TAct where
  | logError
  | logWarn
  | logInfo
  | spawn (handle : Nat)
  | subscribe (topic : String)
  | unsubscribe (topic : String)
  | onMessageAdd (id : String)
  | offMessage (id : String)
  | publish (topic : String) (payload : Payload) (qos : Nat)
  | kill (handle : Nat)
deriving DecidableEq, Repr

/-- Registry entry for one virtual TTY: the spawned process (a handle
standing for the `node-pty` process object), the inbound sequencer
(`seqIn`/`bufferIn`) and the outbound counter (`seqOut`). -/
structure ShellEntry where
  handle : Nat
  inSeq : SeqState
  seqOut : Nat
deriving DecidableEq, Repr

/-- Target-role mutable state: the `shells` Map (insertion-ordered
association list, like a JS `Map`) plus a counter supplying fresh
process handles (models each `pty.spawn` returning a new process). -/
structure TargetState where
  shells : List (String × ShellEntry)
  nextHandle : Nat
deriving DecidableEq, Repr

def initTargetState : TargetState := ⟨[], 0⟩

/-- `shells.has(k)` -/
def mapHas (k : String) (m : List (String × ShellEntry)) : Bool :=
  m.any (fun e => decide (e.1 = k))

/-- `shells.get(k)` -/
def mapGet (k : String) (m : List (String × ShellEntry)) : Option ShellEntry :=
  (m.find? (fun e => decide (e.1 = k))).map (fun e => e.2)

/-- `shells.set(k, v)`: replace in place when the key exists, else
append (JS `Map` keeps insertion order). -/
def mapSet (k : String) (v : ShellEntry) (m : List (String × ShellEntry)) :
    List (String × ShellEntry) :=
  if mapHas k m then m.map (fun e => if e.1 = k then (k, v) else e) else m ++ [(k, v)]

/-- `shells.delete(k)` -/
def mapDelete (k : String) (m : List (String × ShellEntry)) :
    List (String × ShellEntry) :=
  m.filter (fun e => decide (¬ e.1 = k))

/-- `ttyList()` (target.js lines 186-188): publish the current key list
to `base/list` with QoS 1. -/
def ttyListAct (c : TargetCfg) (shells : List (String × ShellEntry)) : TAct :=
  .publish (topicList c) (.listIds (shells.map (fun e => e.1))) 1

/-- `ttyCreate(msg)` (target.js lines 190-261).  `none` models the
uncaught exception thrown by `JSON.parse` on a payload that is not valid
JSON.  Otherwise: schema validation failure is logged and dropped; an
existing id is logged as a warning and dropped; a fresh id spawns a
process, subscribes `base/id/in`, installs the message handler,
registers the entry and publishes the updated list. -/
def ttyCreate (c : TargetCfg) (st : TargetState) (msg : WireMsg) :
    Option (TargetState × List TAct) :=
  match parseJson msg with
  | none => none
  | some v =>
    if validCtrl v = false then some (st, [.logError])
    else
      let id := idParam v
      if mapHas id st.shells then some (st, [.logWarn])
      else
        let h := st.nextHandle
        let shells' := mapSet id ⟨h, initSeqState, 0⟩ st.shells
        some (⟨shells', h + 1⟩,
          [.logInfo, .spawn h, .subscribe (topicTtyIn c id), .onMessageAdd id,
            ttyListAct c shells'])

/-- `ttyRemove(msg)` (target.js lines 263-280): parse (may throw),
validate, warn when the id is absent from the registry, otherwise only
`shell.process.kill(9)` — the registry entry itself is untouched here. -/
def ttyRemove (c : TargetCfg) (st : TargetState) (msg : WireMsg) :
    Option (TargetState × List TAct) :=
  match parseJson msg with
  | none => none
  | some v =>
    if validCtrl v = false then some (st, [.logError])
    else
      match mapGet (idParam v) st.shells with
      | none => some (st, [.logWarn])
      | some sh => some (st, [.logInfo, .kill sh.handle])

/-- The process exit observer registered in `ttyCreate` (target.js lines
218-225): unsubscribe `base/id/in`, detach the message handler, delete
the registry entry, publish the updated list. -/
def onShellExit (c : TargetCfg) (st : TargetState) (id : String) :
    TargetState × List TAct :=
  let shells' := mapDelete id st.shells
  (⟨shells', st.nextHandle⟩,
    [.unsubscribe (topicTtyIn c id), .offMessage id, ttyListAct c shells'])

/-- The broker `connect` handler (target.js lines 284-289): `ttyList()`
first, then subscribe the `create` and `remove` control topics. -/
def onConnect (c : TargetCfg) (st : TargetState) : TargetState × List TAct :=
  (st, [ttyListAct c st.shells, .subscribe (topicCreate c), .subscribe (topicRemove c)])

/-- Events driving the target controller. -/
inductive TEvent where
  | msgCreate (m : WireMsg)
  | msgRemove (m : WireMsg)
  | shellExit (id : String)
  | brokerConnect

/-- Dispatch of one event (the `mqttClient.on` handlers, target.js lines
284-300, plus the per-shell exit observer).  `none` propagates a parse
exception (process crash). -/
def tstep (c : TargetCfg) (st : TargetState) :
    TEvent → Option (TargetState × List TAct)
  | .msgCreate m => ttyCreate c st m
  | .msgRemove m => ttyRemove c st m
  | .shellExit id => some (onShellExit c st id)
  | .brokerConnect => some (onConnect c st)

/-- States the target controller can reach from startup by handling
events that do not crash it. -/
inductive Reachable (c : TargetCfg) : TargetState → Prop where
  | init : Reachable c initTargetState
  | step {st st' : TargetState} {e : TEvent} {tr : List TAct} :
      Reachable c st → tstep c st e = some (st', tr) → Reachable c st'

/-! ### Master role (WS server bridge) -/

/-- Externally visible actions of the master-role handlers. -/
inductive MAct where
  | logError
  | logInfo
  | close
  | publish (topic : String) (payload : Payload) (qos : Nat)
  | subscribe (topic : String)
  | unsubscribe (topic : String)
  | onMessageAdd
  | offMessage
  | heartbeatStart
  | clearHeartbeat
  | ping
  | terminate
deriving DecidableEq, Repr

/-- `VALIDATOR_TARGET` (master source lines 108-111) applied to
`url.searchParams.get('target')`: a missing parameter is `null`, which
fails the `type: string` check; a present one must match the unanchored
`PATTERN_UUID`. -/
def validTarget : Option String → Bool
  | none => false
  | some s => uuidSearch s.data

/-- The `wsServer.on('connection')` handler (master source lines
242-311) up to the end of its synchronous body.  `ttyId` stands for the
fresh `uuid.v4()`.  An invalid target identifier is logged and the
connection closed before any session state is created. -/
def wsConnection (pfx : String) (target? : Option String) (ttyId : String) :
    List MAct :=
  match target? with
  | none => [.logError, .close]
  | some t =>
    if uuidSearch t.data = false then [.logError, .close]
    else
      [.logInfo,
        .publish (topicCreate ⟨pfx, t⟩) (.ctrl ttyId) 1,
        .heartbeatStart,
        .subscribe (topicTtyOut ⟨pfx, t⟩ ttyId),
        .onMessageAdd]

/-- Connection supervision state: the `isAlive` flag, whether
`terminate()` has been called, and whether the heartbeat interval is
still installed. -/
structure WsConn where
  isAlive : Bool
  terminated : Bool
  heartbeatOn : Bool
deriving DecidableEq, Repr

/-- State right after connection setup: `let isAlive = true`, timer
running. -/
def newConn : WsConn := ⟨true, false, true⟩

/-- Supervision events on one master connection. -/
inductive MEvent where
  | tick
  | pong
  | closeEvt
deriving DecidableEq, Repr

/-- One supervision event (master source lines 266-320): an interval
tick (lines 271-279: terminate when `isAlive` is still false, otherwise
clear the flag and ping), a pong from the client (line 269), or the ws
`close` event (lines 312-320: stop the heartbeat, unsubscribe the `out`
topic, detach the handler, publish `remove` with QoS 1). -/
def mstep (pfx t ttyId : String) (conn : WsConn) : MEvent → WsConn × List MAct
  | .tick =>
    if conn.heartbeatOn = false then (conn, [])
    else if conn.isAlive = false then ({conn with terminated := true}, [.terminate])
    else ({conn with isAlive := false}, [.ping])
  | .pong => ({conn with isAlive := true}, [])
  | .closeEvt =>
    ({conn with heartbeatOn := false},
      [.logInfo, .clearHeartbeat, .unsubscribe (topicTtyOut ⟨pfx, t⟩ ttyId), .offMessage,
        .publish (topicRemove ⟨pfx, t⟩) (.ctrl ttyId) 1])

/-- Run a sequence of supervision events, concatenating the actions. -/
def mrun (pfx t ttyId : String) : WsConn → List MEvent → WsConn × List MAct
  | conn, [] => (conn, [])
  | conn, e :: es =>
    let r := mstep pfx t ttyId conn e
    let r2 := mrun pfx t ttyId r.1 es
    (r2.1, r.2 ++ r2.2)

/-- A payload arriving on a session data topic: either unparsable, or a
packet object (the peer only ever publishes serialized packets). -/
inductive PacketMsg where
  | invalid
  | packet (p : Packet)
deriving DecidableEq, Repr

/-- Master `onMessage` for the session's `out` topic (master source
lines 285-298) after the topic check: `JSON.parse` — which throws on a
payload that is not valid JSON, modelled by `none` — then the sequencer
step. -/
def wsOnMessage (st : SeqState) (m : PacketMsg) : Option (SeqState × List String) :=
  match m with
  | .invalid => none
  | .packet p => some (onReceive st p)

/-! ### Sequencer lemmas -/

lemma insertSorted_perm (p : Packet) : ∀ l, List.Perm (insertSorted p l) (p :: l)
  | [] => List.Perm.refl _
  | q :: qs => by
    simp only [insertSorted]
    split
    · exact ((insertSorted_perm p qs).cons q).trans (List.Perm.swap p q qs)
    · exact List.Perm.refl _

lemma mem_insertSorted {x p : Packet} {l : List Packet} :
    x ∈ insertSorted p l ↔ x = p ∨ x ∈ l := by
  rw [(insertSorted_perm p l).mem_iff, List.mem_cons]

lemma insertSorted_pairwise_le {p : Packet} :
    ∀ {l : List Packet}, l.Pairwise (fun a b => a.seq ≤ b.seq) →
      (insertSorted p l).Pairwise (fun a b => a.seq ≤ b.seq)
  | [], _ => by simp [insertSorted]
  | q :: qs, h => by
    obtain ⟨hq, hqs⟩ := List.pairwise_cons.1 h
    simp only [insertSorted]
    split
    · refine List.pairwise_cons.2 ⟨?_, insertSorted_pairwise_le hqs⟩
      intro r hr
      rcases mem_insertSorted.1 hr with rfl | hr
      · assumption
      · exact hq r hr
    · refine List.pairwise_cons.2 ⟨?_, h⟩
      intro r hr
      rcases List.mem_cons.1 hr with rfl | hr
      · omega
      · have := hq r hr; omega

lemma insertSorted_pairwise_lt {p : Packet} :
    ∀ {l : List Packet}, l.Pairwise (fun a b => a.seq < b.seq) →
      (∀ q ∈ l, q.seq ≠ p.seq) →
      (insertSorted p l).Pairwise (fun a b => a.seq < b.seq)
  | [], _, _ => by simp [insertSorted]
  | q :: qs, h, hne => by
    obtain ⟨hq, hqs⟩ := List.pairwise_cons.1 h
    have hqp : q.seq ≠ p.seq := hne q (List.mem_cons_self q qs)
    simp only [insertSorted]
    split
    · refine List.pairwise_cons.2
        ⟨?_, insertSorted_pairwise_lt hqs (fun r hr => hne r (List.mem_cons_of_mem q hr))⟩
      intro r hr
      rcases mem_insertSorted.1 hr with rfl | hr
      · omega
      · exact hq r hr
    · refine List.pairwise_cons.2 ⟨?_, h⟩
      intro r hr
      rcases List.mem_cons.1 hr with rfl | hr
      · omega
      · have := hq r hr; omega

lemma insertSorted_append_of_le {p : Packet} :
    ∀ {l : List Packet}, (∀ q ∈ l, q.seq ≤ p.seq) → insertSorted p l = l ++ [p]
  | [], _ => rfl
  | q :: qs, h => by
    have hq : q.seq ≤ p.seq := h q (List.mem_cons_self q qs)
    simp only [insertSorted, if_pos hq, List.cons_append, List.cons.injEq, true_and]
    exact insertSorted_append_of_le (fun r hr => h r (List.mem_cons_of_mem q hr))

lemma foldl_insertSorted_of_pairwise_le :
    ∀ (l acc : List Packet), (acc ++ l).Pairwise (fun a b => a.seq ≤ b.seq) →
      l.foldl (fun a q => insertSorted q a) acc = acc ++ l
  | [], acc, _ => by simp
  | b :: l, acc, h => by
    have hcross : ∀ a ∈ acc, a.seq ≤ b.seq := by
      intro a ha
      exact (List.pairwise_append.1 h).2.2 a ha b (List.mem_cons_self b l)
    have h' : ((acc ++ [b]) ++ l).Pairwise (fun a b => a.seq ≤ b.seq) := by
      simpa [List.append_assoc] using h
    calc (b :: l).foldl (fun a q => insertSorted q a) acc
        = l.foldl (fun a q => insertSorted q a) (insertSorted b acc) := rfl
      _ = l.foldl (fun a q => insertSorted q a) (acc ++ [b]) := by
          rw [insertSorted_append_of_le hcross]
      _ = (acc ++ [b]) ++ l := foldl_insertSorted_of_pairwise_le l (acc ++ [b]) h'
      _ = acc ++ b :: l := by simp [List.append_assoc]

lemma sortPackets_of_pairwise_le {l : List Packet}
    (h : l.Pairwise (fun a b => a.seq ≤ b.seq)) : sortPackets l = l := by
  have := foldl_insertSorted_of_pairwise_le l [] (by simpa using h)
  simpa [sortPackets] using this

lemma sortPackets_concat (l : List Packet) (p : Packet) :
    sortPackets (l ++ [p]) = insertSorted p (sortPackets l) := by
  simp [sortPackets, List.foldl_append]

lemma sortPackets_eq_insertSorted {l : List Packet} (p : Packet)
    (h : l.Pairwise (fun a b => a.seq ≤ b.seq)) :
    sortPackets (l ++ [p]) = insertSorted p l := by
  rw [sortPackets_concat, sortPackets_of_pairwise_le h]

lemma foldl_insertSorted_perm :
    ∀ (l acc : List Packet),
      List.Perm (l.foldl (fun a q => insertSorted q a) acc) (acc ++ l)
  | [], acc => by simp
  | b :: l, acc => by
    have h1 : List.Perm (l.foldl (fun a q => insertSorted q a) (insertSorted b acc))
        (insertSorted b acc ++ l) := foldl_insertSorted_perm l (insertSorted b acc)
    have h2 : List.Perm (insertSorted b acc ++ l) ((b :: acc) ++ l) :=
      (insertSorted_perm b acc).append_right l
    have h3 : List.Perm ((b :: acc) ++ l) (acc ++ b :: l) := List.perm_middle.symm
    exact (h1.trans h2).trans h3

lemma sortPackets_perm (l : List Packet) : List.Perm (sortPackets l) l := by
  simpa [sortPackets] using foldl_insertSorted_perm l []

lemma foldl_insertSorted_pairwise_le :
    ∀ (l acc : List Packet), acc.Pairwise (fun a b => a.seq ≤ b.seq) →
      (l.foldl (fun a q => insertSorted q a) acc).Pairwise (fun a b => a.seq ≤ b.seq)
  | [], _, h => h
  | b :: l, acc, h =>
    foldl_insertSorted_pairwise_le l (insertSorted b acc) (insertSorted_pairwise_le h)

lemma sortPackets_pairwise_le (l : List Packet) :
    (sortPackets l).Pairwise (fun a b => a.seq ≤ b.seq) :=
  foldl_insertSorted_pairwise_le l [] List.Pairwise.nil

lemma drain_cons_ne {q : Packet} {qs : List Packet} {n : Nat} (h : q.seq ≠ n) :
    drain n (q :: qs) = (n, q :: qs, []) := by
  simp [drain, h]

lemma drain_cons_eq {q : Packet} {qs : List Packet} {n : Nat} (h : q.seq = n) :
    drain n (q :: qs) =
      ((drain (n + 1) qs).1, (drain (n + 1) qs).2.1,
        q.data :: (drain (n + 1) qs).2.2) := by
  simp [drain, h]

lemma drain_spec (N : Nat) (d : Nat → String) :
    ∀ (b : List Packet) (n : Nat), n ≤ N →
      b.Pairwise (fun a c => a.seq < c.seq) →
      (∀ q ∈ b, n ≤ q.seq ∧ q.seq < N ∧ q.data = d q.seq) →
      ∃ m, n ≤ m ∧ m ≤ N ∧
        drain n b = (m, b.filter (fun q => decide (m < q.seq)),
          (List.range' n (m - n)).map d) ∧
        ((b.map Packet.seq : Multiset Nat) =
          (↑(List.range' n (m - n)) : Multiset Nat) +
            ↑((b.filter (fun q => decide (m < q.seq))).map Packet.seq))
  | [], n, hnN, _, _ => ⟨n, le_refl n, hnN, by simp [drain], by simp⟩
  | q :: qs, n, hnN, hpair, hmem => by
    obtain ⟨hq1, hq2, hq3⟩ := hmem q (List.mem_cons_self q qs)
    obtain ⟨hq, hqs⟩ := List.pairwise_cons.1 hpair
    by_cases hqn : q.seq = n
    · have hn1N : n + 1 ≤ N := by omega
      have hmem' : ∀ r ∈ qs, n + 1 ≤ r.seq ∧ r.seq < N ∧ r.data = d r.seq := by
        intro r hr
        obtain ⟨_, h2, h3⟩ := hmem r (List.mem_cons_of_mem q hr)
        have := hq r hr
        exact ⟨by omega, h2, h3⟩
      obtain ⟨m, hm1, hm2, hdr, hms⟩ := drain_spec N d qs (n + 1) hn1N hqs hmem'
      have hmn : ¬ m < q.seq := by omega
      have hsub : m - n = (m - (n + 1)) + 1 := by omega
      have hflt : (q :: qs).filter (fun r => decide (m < r.seq)) =
          qs.filter (fun r => decide (m < r.seq)) := by
        simp [List.filter_cons, hmn]
      refine ⟨m, by omega, hm2, ?_, ?_⟩
      · rw [drain_cons_eq hqn, hdr, hflt, hsub, List.range'_succ]
        simp [hq3, hqn]
      · rw [hflt, hsub, List.range'_succ]
        simp only [List.map_cons, ← Multiset.cons_coe, Multiset.cons_add]
        rw [hqn, hms]
    · refine ⟨n, le_refl n, hnN, ?_, ?_⟩
      · have hfa : ∀ r ∈ q :: qs, decide (n < r.seq) = true := by
          intro r hr
          rcases List.mem_cons.1 hr with rfl | hr
          · simp only [decide_eq_true_eq]; omega
          · have h1 := hq r hr
            simp only [decide_eq_true_eq]; omega
        rw [drain_cons_ne hqn, List.filter_eq_self.2 hfa]
        simp
      · have hfa : ∀ r ∈ q :: qs, decide (n < r.seq) = true := by
          intro r hr
          rcases List.mem_cons.1 hr with rfl | hr
          · simp only [decide_eq_true_eq]; omega
          · have h1 := hq r hr
            simp only [decide_eq_true_eq]; omega
        rw [List.filter_eq_self.2 hfa]
        simp

lemma runSeq_spec (N : Nat) (d : Nat → String) :
    ∀ (rest : List Packet) (n : Nat) (buffer : List Packet),
      n ≤ N →
      buffer.Pairwise (fun a b => a.seq < b.seq) →
      (∀ q ∈ buffer, n < q.seq ∧ q.seq < N ∧ q.data = d q.seq) →
      (∀ p ∈ rest, p.data = d p.seq) →
      ((rest.map Packet.seq : Multiset Nat) + Multiset.range n +
        ↑(buffer.map Packet.seq) = Multiset.range N) →
      (runSeq ⟨n, buffer⟩ rest).2 = (List.range' n (N - n)).map d
  | [], n, buffer, hnN, _, hbuf, _, hms => by
    have hNn : N ≤ n := by
      by_contra hlt
      push_neg at hlt
      have hn : n ∈ Multiset.range N := Multiset.mem_range.2 hlt
      rw [← hms] at hn
      rcases Multiset.mem_add.1 hn with hn | hn
      · rcases Multiset.mem_add.1 hn with hn | hn
        · simp at hn
        · exact absurd (Multiset.mem_range.1 hn) (lt_irrefl n)
      · rw [Multiset.mem_coe, List.mem_map] at hn
        obtain ⟨q, hq, hqe⟩ := hn
        have := (hbuf q hq).1
        omega
    have hz : N - n = 0 := by omega
    simp [runSeq, hz]
  | p :: rest, n, buffer, hnN, hpair, hbuf, hdata, hms => by
    obtain ⟨hnd1, hnd2, hdisj2⟩ := Multiset.nodup_add.1 (by
      rw [hms]; exact Multiset.nodup_range N)
    obtain ⟨hnd3, hnd4, hdisj1⟩ := Multiset.nodup_add.1 hnd1
    have hpmem : p.seq ∈ (((p :: rest).map Packet.seq : List Nat) : Multiset Nat) := by
      simp
    have hpN : p.seq < N := by
      have hmm : p.seq ∈ Multiset.range N := by
        rw [← hms]
        exact Multiset.mem_add.2 (Or.inl (Multiset.mem_add.2 (Or.inl hpmem)))
      exact Multiset.mem_range.1 hmm
    have hnp : n ≤ p.seq := by
      by_contra hlt
      push_neg at hlt
      exact absurd (Multiset.mem_range.2 hlt) (Multiset.disjoint_left.1 hdisj1 hpmem)
    have hnotbuf : p.seq ∉ (↑(buffer.map Packet.seq) : Multiset Nat) :=
      Multiset.disjoint_left.1 hdisj2 (Multiset.mem_add.2 (Or.inl hpmem))
    have hne : ∀ q ∈ buffer, q.seq ≠ p.seq := by
      intro q hq hcontra
      apply hnotbuf
      rw [Multiset.mem_coe, List.mem_map]
      exact ⟨q, hq, hcontra⟩
    have hble : buffer.Pairwise (fun a b => a.seq ≤ b.seq) :=
      hpair.imp (fun h => le_of_lt h)
    have hsorteq : sortPackets (buffer ++ [p]) = insertSorted p buffer :=
      sortPackets_eq_insertSorted p hble
    have hpairins : (insertSorted p buffer).Pairwise (fun a b => a.seq < b.seq) :=
      insertSorted_pairwise_lt hpair hne
    have hinsmem : ∀ q ∈ insertSorted p buffer,
        n ≤ q.seq ∧ q.seq < N ∧ q.data = d q.seq := by
      intro q hq
      rcases mem_insertSorted.1 hq with rfl | hq
      · exact ⟨hnp, hpN, hdata q (List.mem_cons_self q rest)⟩
      · obtain ⟨h1, h2, h3⟩ := hbuf q hq
        exact ⟨le_of_lt h1, h2, h3⟩
    obtain ⟨m, hnm, hmN, hdr, hmsd⟩ :=
      drain_spec N d (insertSorted p buffer) n hnN hpairins hinsmem
    have honr : onReceive ⟨n, buffer⟩ p =
        (⟨m, (insertSorted p buffer).filter (fun q => decide (m < q.seq))⟩,
          (List.range' n (m - n)).map d) := by
      simp only [onReceive]
      rw [hsorteq, hdr]
    have hb'pair : ((insertSorted p buffer).filter
        (fun q => decide (m < q.seq))).Pairwise (fun a b => a.seq < b.seq) :=
      List.Pairwise.sublist (List.filter_sublist _) hpairins
    have hb'mem : ∀ q ∈ (insertSorted p buffer).filter (fun q => decide (m < q.seq)),
        m < q.seq ∧ q.seq < N ∧ q.data = d q.seq := by
      intro q hq
      obtain ⟨hq1, hq2⟩ := List.mem_filter.1 hq
      obtain ⟨_, h2, h3⟩ := hinsmem q hq1
      exact ⟨by simpa using hq2, h2, h3⟩
    have hdata' : ∀ r ∈ rest, r.data = d r.seq :=
      fun r hr => hdata r (List.mem_cons_of_mem p hr)
    have hrange_m : (Multiset.range m : Multiset Nat) =
        Multiset.range n + ↑(List.range' n (m - n)) := by
      have h := List.range'_append 0 n (m - n) 1
      rw [one_mul, Nat.zero_add] at h
      have e : (m - n) + n = m := by omega
      rw [e] at h
      show ((List.range m : List Nat) : Multiset Nat) =
        ↑(List.range n) + ↑(List.range' n (m - n))
      rw [List.range_eq_range', List.range_eq_range', ← h, ← Multiset.coe_add]
    have hperm : ((insertSorted p buffer).map Packet.seq : Multiset Nat) =
        p.seq ::ₘ ↑(buffer.map Packet.seq) := by
      have hp := (insertSorted_perm p buffer).map Packet.seq
      rw [Multiset.coe_eq_coe.2 hp]
      simp [Multiset.cons_coe]
    have hkey : (↑(List.range' n (m - n)) : Multiset Nat) +
        ↑(((insertSorted p buffer).filter (fun q => decide (m < q.seq))).map
          Packet.seq) = p.seq ::ₘ ↑(buffer.map Packet.seq) := by
      rw [← hmsd]; exact hperm
    have hms' : (rest.map Packet.seq : Multiset Nat) + Multiset.range m +
        ↑(((insertSorted p buffer).filter (fun q => decide (m < q.seq))).map
          Packet.seq) = Multiset.range N := by
      have hA : (((p :: rest).map Packet.seq : List Nat) : Multiset Nat) =
          {p.seq} + ↑(rest.map Packet.seq) := by
        simp only [List.map_cons, ← Multiset.cons_coe, Multiset.singleton_add]
      have hkey' : (↑(List.range' n (m - n)) : Multiset Nat) +
          ↑(((insertSorted p buffer).filter (fun q => decide (m < q.seq))).map
            Packet.seq) = {p.seq} + ↑(buffer.map Packet.seq) := by
        rw [hkey, Multiset.singleton_add]
      rw [hrange_m, ← hms, hA]
      rw [show (↑(rest.map Packet.seq) : Multiset Nat) +
          (Multiset.range n + ↑(List.range' n (m - n))) +
          ↑(((insertSorted p buffer).filter (fun q => decide (m < q.seq))).map
            Packet.seq) =
          ↑(rest.map Packet.seq) + Multiset.range n +
            (↑(List.range' n (m - n)) +
              ↑(((insertSorted p buffer).filter (fun q => decide (m < q.seq))).map
                Packet.seq)) from by abel, hkey']
      abel
    have hih := runSeq_spec N d rest m
      ((insertSorted p buffer).filter (fun q => decide (m < q.seq)))
      hmN hb'pair hb'mem hdata' hms'
    have hrs : (runSeq ⟨n, buffer⟩ (p :: rest)).2 =
        (onReceive ⟨n, buffer⟩ p).2 ++
          (runSeq (onReceive ⟨n, buffer⟩ p).1 rest).2 := rfl
    rw [hrs, honr]
    show (List.range' n (m - n)).map d ++
      (runSeq ⟨m, (insertSorted p buffer).filter (fun q => decide (m < q.seq))⟩
        rest).2 = (List.range' n (N - n)).map d
    rw [hih, ← List.map_append]
    congr 1
    have h := List.range'_append n (m - n) (N - m) 1
    rw [one_mul] at h
    have e1 : n + (m - n) = m := by omega
    have e2 : (N - m) + (m - n) = N - n := by omega
    rw [e1, e2] at h
    exact h

/-- C1: for every N and every permutation of the distinct packets with
seq 0..N-1 (each delivered exactly once), feeding them to a receive-side
Sequencer's onReceive in that permuted order causes the local sink to
receive exactly the data values in seq order 0, 1, ..., N-1, each
exactly once. -/
theorem sequencer_reassembly_order (N : Nat) (d : Nat → String) (l : List Packet)
    (hseq : (l.map Packet.seq : Multiset Nat) = Multiset.range N)
    (hdata : ∀ p ∈ l, p.data = d p.seq) :
    (runSeq initSeqState l).2 = (List.range N).map d := by
  have h := runSeq_spec N d l 0 [] (Nat.zero_le N) List.Pairwise.nil
    (by intro q hq; cases hq) hdata (by simpa using hseq)
  rw [show initSeqState = (⟨0, []⟩ : SeqState) from rfl, h,
    List.range_eq_range', Nat.sub_zero]

/-- Witness for C1 at N = 3 with the arrival order 1, 2, 0. -/
theorem sequencer_reassembly_order_witness :
    (runSeq initSeqState [⟨1, "b"⟩, ⟨2, "c"⟩, ⟨0, "a"⟩]).2 =
      (List.range 3).map (fun i => ["a", "b", "c"].getD i "") :=
  sequencer_reassembly_order 3 (fun i => ["a", "b", "c"].getD i "")
    [⟨1, "b"⟩, ⟨2, "c"⟩, ⟨0, "a"⟩] (by decide) (by decide)

/-! ### Stale packets: retention and permanent stall -/

lemma runSeq_blocked :
    ∀ (rest : List Packet) (st : SeqState) (q : Packet),
      q ∈ st.buffer → q.seq < st.next → (runSeq st rest).2 = []
  | [], _, _, _, _ => rfl
  | p :: rest, st, q, hq, hlt => by
    have hqmem : q ∈ sortPackets (st.buffer ++ [p]) :=
      (sortPackets_perm (st.buffer ++ [p])).mem_iff.2
        (List.mem_append.2 (Or.inl hq))
    have hpair := sortPackets_pairwise_le (st.buffer ++ [p])
    rcases hbuf : sortPackets (st.buffer ++ [p]) with _ | ⟨h, t⟩
    · rw [hbuf] at hqmem; cases hqmem
    · rw [hbuf] at hqmem hpair
      have hh : h.seq ≤ q.seq := by
        rcases List.mem_cons.1 hqmem with rfl | hqt
        · exact le_refl _
        · exact (List.pairwise_cons.1 hpair).1 q hqt
      have hne : h.seq ≠ st.next := by omega
      have honr : onReceive st p = (⟨st.next, h :: t⟩, []) := by
        simp only [onReceive]
        rw [hbuf, drain_cons_ne hne]
      have hrs : (runSeq st (p :: rest)).2 =
          (onReceive st p).2 ++ (runSeq (onReceive st p).1 rest).2 := rfl
      rw [hrs, honr]
      show [] ++ (runSeq ⟨st.next, h :: t⟩ rest).2 = []
      rw [List.nil_append]
      exact runSeq_blocked rest ⟨st.next, h :: t⟩ q (hbuf ▸ hqmem) hlt

/-- C2 counterexample: after delivering seq 0, injecting a duplicate of
seq 0 changes the subsequent behaviour — the later in-order packet seq 1
is no longer delivered to the sink. -/
theorem seq_stale_discard_cex :
    (runSeq initSeqState [⟨0, "a"⟩, ⟨0, "a"⟩, ⟨1, "b"⟩]).2 ≠
      (runSeq initSeqState [⟨0, "a"⟩, ⟨1, "b"⟩]).2 := by
  decide

/-- C2 (amended): a packet whose seq is strictly below nextExpected is
not delivered to the sink, but it is NOT discarded: it is retained in
the buffer, the counter is unchanged, and from then on the sequencer is
permanently stalled — no packet fed to it afterwards is ever delivered. -/
theorem onReceive_stale_retained (st : SeqState) (p : Packet)
    (h : p.seq < st.next) :
    (onReceive st p).2 = [] ∧ (onReceive st p).1.next = st.next ∧
      p ∈ (onReceive st p).1.buffer ∧
      ∀ rest, (runSeq (onReceive st p).1 rest).2 = [] := by
  have hpmem : p ∈ sortPackets (st.buffer ++ [p]) :=
    (sortPackets_perm (st.buffer ++ [p])).mem_iff.2
      (List.mem_append.2 (Or.inr (List.mem_singleton.2 rfl)))
  have hpair := sortPackets_pairwise_le (st.buffer ++ [p])
  rcases hbuf : sortPackets (st.buffer ++ [p]) with _ | ⟨hd, t⟩
  · rw [hbuf] at hpmem; cases hpmem
  · rw [hbuf] at hpmem hpair
    have hh : hd.seq ≤ p.seq := by
      rcases List.mem_cons.1 hpmem with rfl | hqt
      · exact le_refl _
      · exact (List.pairwise_cons.1 hpair).1 p hqt
    have hne : hd.seq ≠ st.next := by omega
    have honr : onReceive st p = (⟨st.next, hd :: t⟩, []) := by
      simp only [onReceive]
      rw [hbuf, drain_cons_ne hne]
    refine ⟨by rw [honr], by rw [honr], by rw [honr]; exact hpmem, ?_⟩
    intro rest
    rw [honr]
    exact runSeq_blocked rest ⟨st.next, hd :: t⟩ p hpmem h

/-- Witness for the amended C2: state with nextExpected 1 and an empty
buffer, fed the stale packet seq 0 and then the in-order packet seq 1. -/
theorem onReceive_stale_retained_witness :
    (onReceive ⟨1, []⟩ ⟨0, "a"⟩).2 = [] ∧
      (onReceive ⟨1, []⟩ ⟨0, "a"⟩).1.next = 1 ∧
      (⟨0, "a"⟩ : Packet) ∈ (onReceive ⟨1, []⟩ ⟨0, "a"⟩).1.buffer ∧
      (runSeq (onReceive ⟨1, []⟩ ⟨0, "a"⟩).1 [⟨1, "b"⟩]).2 = [] := by
  have h := onReceive_stale_retained ⟨1, []⟩ ⟨0, "a"⟩ (by decide)
  exact ⟨h.1, h.2.1, h.2.2.1, h.2.2.2 [⟨1, "b"⟩]⟩

/-! ### Heartbeat supervision (C4) -/

/-- Is this action a publish to the given topic? -/
def isPub (topic : String) (a : MAct) : Bool :=
  match a with
  | .publish tp _ _ => decide (tp = topic)
  | _ => false

lemma mrun_append (pfx t id : String) :
    ∀ (l1 l2 : List MEvent) (conn : WsConn),
      mrun pfx t id conn (l1 ++ l2) =
        ((mrun pfx t id (mrun pfx t id conn l1).1 l2).1,
          (mrun pfx t id conn l1).2 ++ (mrun pfx t id (mrun pfx t id conn l1).1 l2).2)
  | [], l2, conn => by simp [mrun]
  | e :: l1, l2, conn => by
    have ih := mrun_append pfx t id l1 l2 (mstep pfx t id conn e).1
    show ((mrun pfx t id (mstep pfx t id conn e).1 (l1 ++ l2)).1,
        (mstep pfx t id conn e).2 ++
          (mrun pfx t id (mstep pfx t id conn e).1 (l1 ++ l2)).2) = _
    rw [ih]
    show _ = ((mrun pfx t id (mrun pfx t id (mstep pfx t id conn e).1 l1).1 l2).1,
        ((mstep pfx t id conn e).2 ++
            (mrun pfx t id (mstep pfx t id conn e).1 l1).2) ++
          (mrun pfx t id (mrun pfx t id (mstep pfx t id conn e).1 l1).1 l2).2)
    simp [List.append_assoc]

lemma mrun_tick_stuck (pfx t id : String) :
    ∀ k, mrun pfx t id ⟨false, true, true⟩ (List.replicate k MEvent.tick) =
      (⟨false, true, true⟩, List.replicate k MAct.terminate)
  | 0 => rfl
  | k + 1 => by
    have hstep : mstep pfx t id ⟨false, true, true⟩ MEvent.tick =
        (⟨false, true, true⟩, [MAct.terminate]) := rfl
    show ((mrun pfx t id (mstep pfx t id ⟨false, true, true⟩ MEvent.tick).1
        (List.replicate k MEvent.tick)).1,
      (mstep pfx t id ⟨false, true, true⟩ MEvent.tick).2 ++
        (mrun pfx t id (mstep pfx t id ⟨false, true, true⟩ MEvent.tick).1
          (List.replicate k MEvent.tick)).2) = _
    rw [hstep, mrun_tick_stuck pfx t id k]
    rfl

lemma filter_replicate_terminate (topic : String) :
    ∀ k, (List.replicate k MAct.terminate).filter (isPub topic) = []
  | 0 => rfl
  | k + 1 => by
    simp only [List.replicate_succ, List.filter_cons]
    rw [show isPub topic MAct.terminate = false from rfl]
    simp only [Bool.false_eq_true, if_false]
    exact filter_replicate_terminate topic k

/-- C4: a master connection that never acknowledges a liveness probe is
forcibly terminated at exactly the second heartbeat tick (not after the
first), and across the whole run — the silent ticks followed by the ws
close event that terminating triggers — exactly one remove control
message carrying the session id is published to base/remove, with
QoS 1. -/
theorem heartbeat_timeout_two_intervals (pfx t id : String) (k : Nat) :
    ((mrun pfx t id newConn (List.replicate k MEvent.tick)).1.terminated
        = decide (2 ≤ k)) ∧
    ((mrun pfx t id newConn
        (List.replicate k MEvent.tick ++ [MEvent.closeEvt])).2.filter
          (isPub (topicRemove ⟨pfx, t⟩)) =
      [MAct.publish (topicRemove ⟨pfx, t⟩) (Payload.ctrl id) 1]) := by
  have hclose : ∀ conn : WsConn,
      (mrun pfx t id conn [MEvent.closeEvt]).2.filter
        (isPub (topicRemove ⟨pfx, t⟩)) =
      [MAct.publish (topicRemove ⟨pfx, t⟩) (Payload.ctrl id) 1] := by
    intro conn
    simp [mrun, mstep, isPub, List.filter_cons]
  rcases k with _ | _ | k
  · constructor
    · rfl
    · simpa using hclose newConn
  · constructor
    · rfl
    · show (MAct.ping ::
          (mrun pfx t id ⟨false, false, true⟩ [MEvent.closeEvt]).2).filter
        (isPub (topicRemove ⟨pfx, t⟩)) = _
      rw [List.filter_cons,
        show isPub (topicRemove ⟨pfx, t⟩) MAct.ping = false from rfl]
      simp only [Bool.false_eq_true, if_false]
      exact hclose ⟨false, false, true⟩
  · have hsplit : List.replicate (k + 2) MEvent.tick ++ [MEvent.closeEvt] =
        MEvent.tick :: MEvent.tick ::
          (List.replicate k MEvent.tick ++ [MEvent.closeEvt]) := by
      simp [List.replicate_succ]
    have hstep2 : ∀ l, mrun pfx t id newConn (MEvent.tick :: MEvent.tick :: l) =
        ((mrun pfx t id ⟨false, true, true⟩ l).1,
          MAct.ping :: MAct.terminate ::
            (mrun pfx t id ⟨false, true, true⟩ l).2) := by
      intro l
      have h1 : mstep pfx t id newConn MEvent.tick =
          (⟨false, false, true⟩, [MAct.ping]) := rfl
      have h2 : mstep pfx t id ⟨false, false, true⟩ MEvent.tick =
          (⟨false, true, true⟩, [MAct.terminate]) := rfl
      show ((mrun pfx t id (mstep pfx t id ⟨false, false, true⟩ MEvent.tick).1 l).1,
        [MAct.ping] ++ ((mstep pfx t id ⟨false, false, true⟩ MEvent.tick).2 ++
          (mrun pfx t id (mstep pfx t id ⟨false, false, true⟩ MEvent.tick).1 l).2)) = _
      rw [h2]
      rfl
    constructor
    · rw [show List.replicate (k + 2) MEvent.tick =
        MEvent.tick :: MEvent.tick :: List.replicate k MEvent.tick from by
          simp [List.replicate_succ]]
      rw [hstep2, mrun_tick_stuck pfx t id k]
      simp [show 2 ≤ k + 2 from by omega]
    · rw [hsplit, hstep2,
        mrun_append pfx t id (List.replicate k MEvent.tick) [MEvent.closeEvt]
          ⟨false, true, true⟩,
        mrun_tick_stuck pfx t id k]
      simp only [List.filter_cons, List.filter_append]
      rw [show isPub (topicRemove ⟨pfx, t⟩) MAct.ping = false from rfl,
        show isPub (topicRemove ⟨pfx, t⟩) MAct.terminate = false from rfl]
      simp only [Bool.false_eq_true, if_false]
      rw [filter_replicate_terminate (topicRemove ⟨pfx, t⟩) k]
      rw [List.nil_append]
      exact hclose ⟨false, true, true⟩

/-! ### Session registry lemmas (target role) -/

lemma validCtrl_id (S : String) (h : uuidSearch S.data = true) :
    validCtrl (.jobj [("id", .jstr S)]) = true := by
  simp [validCtrl, lookupField, List.find?, h]

lemma idParam_id (S : String) : idParam (.jobj [("id", .jstr S)]) = S := by
  simp [idParam, jget, lookupField, List.find?]

lemma mapHas_of_mapGet {k : String} {m : List (String × ShellEntry)}
    {sh : ShellEntry} (h : mapGet k m = some sh) : mapHas k m = true := by
  unfold mapGet at h
  cases hf : m.find? (fun e => decide (e.1 = k)) with
  | none => rw [hf] at h; simp at h
  | some e =>
    have hmem := List.mem_of_find?_eq_some hf
    have hpred := List.find?_some hf
    unfold mapHas
    rw [List.any_eq_true]
    exact ⟨e, hmem, hpred⟩

lemma ttyCreate_existing (c : TargetCfg) (st : TargetState) (S : String)
    (hvalid : uuidSearch S.data = true) (hhas : mapHas S st.shells = true) :
    ttyCreate c st (.value (.jobj [("id", .jstr S)])) =
      some (st, [TAct.logWarn]) := by
  simp [ttyCreate, parseJson, validCtrl_id S hvalid, idParam_id, hhas]

lemma ttyRemove_present (c : TargetCfg) (st : TargetState) (S : String)
    (sh : ShellEntry) (hvalid : uuidSearch S.data = true)
    (hget : mapGet S st.shells = some sh) :
    ttyRemove c st (.value (.jobj [("id", .jstr S)])) =
      some (st, [TAct.logInfo, TAct.kill sh.handle]) := by
  simp [ttyRemove, parseJson, validCtrl_id S hvalid, idParam_id, hget]

lemma ttyRemove_state {c : TargetCfg} {st st' : TargetState} {m : WireMsg}
    {tr : List TAct} (h : ttyRemove c st m = some (st', tr)) : st' = st := by
  cases m with
  | invalid => simp [ttyRemove, parseJson] at h
  | value v =>
    simp only [ttyRemove, parseJson] at h
    by_cases hv : validCtrl v = false
    · rw [if_pos hv] at h
      simp at h
      exact h.1.symm
    · rw [if_neg hv] at h
      cases hg : mapGet (idParam v) st.shells with
      | none => rw [hg] at h; simp at h; exact h.1.symm
      | some sh => rw [hg] at h; simp at h; exact h.1.symm

lemma ttyCreate_state {c : TargetCfg} {st st' : TargetState} {m : WireMsg}
    {tr : List TAct} (h : ttyCreate c st m = some (st', tr)) :
    st' = st ∨ ∃ id, mapHas id st.shells = false ∧
      st' = ⟨st.shells ++ [(id, ⟨st.nextHandle, initSeqState, 0⟩)],
        st.nextHandle + 1⟩ := by
  cases m with
  | invalid => simp [ttyCreate, parseJson] at h
  | value v =>
    simp only [ttyCreate, parseJson] at h
    by_cases hv : validCtrl v = false
    · rw [if_pos hv] at h
      simp at h
      exact Or.inl h.1.symm
    · rw [if_neg hv] at h
      by_cases hh : mapHas (idParam v) st.shells = true
      · rw [if_pos hh] at h
        simp at h
        exact Or.inl h.1.symm
      · rw [if_neg hh] at h
        simp at h
        refine Or.inr ⟨idParam v, by simpa using hh, ?_⟩
        rw [← h.1]
        unfold mapSet
        rw [if_neg hh]

/-- C10: in every reachable target state each session identifier is
bound to at most one entry (the registry key list has no duplicates),
and a create(S) arriving after remove(S) requested termination but
before the exit is observed is rejected as already-existing: the remove
only kills the process and leaves the registry unchanged, and the
following create for the same id is a warning no-op with no spawn. -/
theorem registry_at_most_one_process (c : TargetCfg) (st : TargetState)
    (S : String) (sh : ShellEntry) :
    (Reachable c st → (st.shells.map (fun e => e.1)).Nodup) ∧
    (uuidSearch S.data = true → mapGet S st.shells = some sh →
      ttyRemove c st (.value (.jobj [("id", .jstr S)])) =
          some (st, [TAct.logInfo, TAct.kill sh.handle]) ∧
        ttyCreate c st (.value (.jobj [("id", .jstr S)])) =
          some (st, [TAct.logWarn])) := by
  constructor
  · intro h
    induction h with
    | init => simp [initTargetState]
    | @step st1 st2 e tr _ heq ih =>
      cases e with
      | msgCreate m =>
        have heq' : ttyCreate c st1 m = some (st2, tr) := heq
        rcases ttyCreate_state heq' with rfl | ⟨id, hfresh, rfl⟩
        · exact ih
        · show ((st1.shells ++
            [(id, (⟨st1.nextHandle, initSeqState, 0⟩ : ShellEntry))]).map
              (fun e => e.1)).Nodup
          rw [List.map_append]
          rw [List.nodup_append]
          refine ⟨ih, by simp, ?_⟩
          intro a ha hb
          simp at hb
          subst hb
          unfold mapHas at hfresh
          rw [Bool.eq_false_iff] at hfresh
          apply hfresh
          rw [List.any_eq_true]
          simp only [List.mem_map] at ha
          obtain ⟨e, he, hee⟩ := ha
          exact ⟨e, he, by simp [hee]⟩
      | msgRemove m =>
        have heq' : ttyRemove c st1 m = some (st2, tr) := heq
        rw [ttyRemove_state heq']
        exact ih
      | shellExit id =>
        have heq' : onShellExit c st1 id = (st2, tr) := Option.some.inj heq
        have hst : st2 = (onShellExit c st1 id).1 := by rw [heq']
        rw [hst]
        show ((mapDelete id st1.shells).map (fun e => e.1)).Nodup
        exact List.Nodup.sublist
          ((List.filter_sublist st1.shells).map (fun e => e.1)) ih
      | brokerConnect =>
        have heq' : onConnect c st1 = (st2, tr) := Option.some.inj heq
        have hst : st2 = (onConnect c st1).1 := by rw [heq']
        rw [hst]
        exact ih
  · intro hvalid hget
    exact ⟨ttyRemove_present c st S sh hvalid hget,
      ttyCreate_existing c st S hvalid (mapHas_of_mapGet hget)⟩

/-- Witness for C10: the state reached by creating one session, which
contains exactly that session id. -/
theorem registry_at_most_one_process_witness :
    ((((⟨[("11111111-1111-1111-1111-111111111111",
          ⟨0, initSeqState, 0⟩)], 1⟩ : TargetState).shells.map
        (fun e => e.1)).Nodup) ∧
      (ttyRemove ⟨"", "t"⟩
          ⟨[("11111111-1111-1111-1111-111111111111", ⟨0, initSeqState, 0⟩)], 1⟩
          (.value (.jobj [("id",
            .jstr "11111111-1111-1111-1111-111111111111")])) =
        some (⟨[("11111111-1111-1111-1111-111111111111",
          ⟨0, initSeqState, 0⟩)], 1⟩, [TAct.logInfo, TAct.kill 0]) ∧
      ttyCreate ⟨"", "t"⟩
          ⟨[("11111111-1111-1111-1111-111111111111", ⟨0, initSeqState, 0⟩)], 1⟩
          (.value (.jobj [("id",
            .jstr "11111111-1111-1111-1111-111111111111")])) =
        some (⟨[("11111111-1111-1111-1111-111111111111",
          ⟨0, initSeqState, 0⟩)], 1⟩, [TAct.logWarn]))) := by
  have h := registry_at_most_one_process ⟨"", "t"⟩
    ⟨[("11111111-1111-1111-1111-111111111111", ⟨0, initSeqState, 0⟩)], 1⟩
    "11111111-1111-1111-1111-111111111111" ⟨0, initSeqState, 0⟩
  have hreach : Reachable ⟨"", "t"⟩
      ⟨[("11111111-1111-1111-1111-111111111111", ⟨0, initSeqState, 0⟩)], 1⟩ :=
    @Reachable.step ⟨"", "t"⟩ initTargetState
      ⟨[("11111111-1111-1111-1111-111111111111", ⟨0, initSeqState, 0⟩)], 1⟩
      (TEvent.msgCreate (.value (.jobj [("id",
        .jstr "11111111-1111-1111-1111-111111111111")])))
      [TAct.logInfo, TAct.spawn 0,
        TAct.subscribe
          (topicTtyIn ⟨"", "t"⟩ "11111111-1111-1111-1111-111111111111"),
        TAct.onMessageAdd "11111111-1111-1111-1111-111111111111",
        TAct.publish (topicList ⟨"", "t"⟩)
          (Payload.listIds ["11111111-1111-1111-1111-111111111111"]) 1]
      Reachable.init (by decide)
  exact ⟨h.1 hreach, h.2 (by decide) (by decide)⟩

/-- C6: a create for a session id already present in the registry is a
logged no-op: the state (registry, processes, sequencers) is unchanged
and the only action is a single warning — no spawn, no subscription, no
list publish. -/
theorem create_existing_is_warn_noop (c : TargetCfg) (st : TargetState)
    (S : String) (hvalid : uuidSearch S.data = true)
    (hhas : mapHas S st.shells = true) :
    ttyCreate c st (.value (.jobj [("id", .jstr S)])) =
      some (st, [TAct.logWarn]) :=
  ttyCreate_existing c st S hvalid hhas

/-- Witness for C6 at a one-session registry. -/
theorem create_existing_is_warn_noop_witness :
    ttyCreate ⟨"", "t"⟩
        ⟨[("11111111-1111-1111-1111-111111111111", ⟨0, initSeqState, 0⟩)], 1⟩
        (.value (.jobj [("id",
          .jstr "11111111-1111-1111-1111-111111111111")])) =
      some (⟨[("11111111-1111-1111-1111-111111111111",
        ⟨0, initSeqState, 0⟩)], 1⟩, [TAct.logWarn]) :=
  create_existing_is_warn_noop ⟨"", "t"⟩
    ⟨[("11111111-1111-1111-1111-111111111111", ⟨0, initSeqState, 0⟩)], 1⟩
    "11111111-1111-1111-1111-111111111111" (by decide) (by decide)

/-- C7: remove(S) for a registered session only requests forcible
termination (kill 9) of the bound process and changes nothing else
synchronously — the registry entry with its sequencer state stays, and
nothing is unsubscribed or published; the exit observer is the single
cleanup path: it unsubscribes base/S/in, detaches the handler, deletes
the entry and publishes the updated list. -/
theorem remove_kills_only_exit_cleans (c : TargetCfg) (st : TargetState)
    (S : String) (sh : ShellEntry) (hvalid : uuidSearch S.data = true)
    (hget : mapGet S st.shells = some sh) :
    ttyRemove c st (.value (.jobj [("id", .jstr S)])) =
        some (st, [TAct.logInfo, TAct.kill sh.handle]) ∧
      onShellExit c st S =
        (⟨mapDelete S st.shells, st.nextHandle⟩,
          [TAct.unsubscribe (topicTtyIn c S), TAct.offMessage S,
            TAct.publish (topicList c)
              (Payload.listIds ((mapDelete S st.shells).map (fun e => e.1))) 1]) :=
  ⟨ttyRemove_present c st S sh hvalid hget, rfl⟩

/-- Witness for C7 at a one-session registry. -/
theorem remove_kills_only_exit_cleans_witness :
    ttyRemove ⟨"", "t"⟩
        ⟨[("11111111-1111-1111-1111-111111111111", ⟨0, initSeqState, 0⟩)], 1⟩
        (.value (.jobj [("id",
          .jstr "11111111-1111-1111-1111-111111111111")])) =
      some (⟨[("11111111-1111-1111-1111-111111111111",
        ⟨0, initSeqState, 0⟩)], 1⟩, [TAct.logInfo, TAct.kill 0]) ∧
    onShellExit ⟨"", "t"⟩
        ⟨[("11111111-1111-1111-1111-111111111111", ⟨0, initSeqState, 0⟩)], 1⟩
        "11111111-1111-1111-1111-111111111111" =
      (⟨mapDelete "11111111-1111-1111-1111-111111111111"
          [("11111111-1111-1111-1111-111111111111", ⟨0, initSeqState, 0⟩)], 1⟩,
        [TAct.unsubscribe
            (topicTtyIn ⟨"", "t"⟩ "11111111-1111-1111-1111-111111111111"),
          TAct.offMessage "11111111-1111-1111-1111-111111111111",
          TAct.publish (topicList ⟨"", "t"⟩)
            (Payload.listIds ((mapDelete "11111111-1111-1111-1111-111111111111"
              [("11111111-1111-1111-1111-111111111111",
                ⟨0, initSeqState, 0⟩)]).map (fun e => e.1))) 1]) :=
  remove_kills_only_exit_cleans ⟨"", "t"⟩
    ⟨[("11111111-1111-1111-1111-111111111111", ⟨0, initSeqState, 0⟩)], 1⟩
    "11111111-1111-1111-1111-111111111111" ⟨0, initSeqState, 0⟩
    (by decide) (by decide)

/-! ### Malformed input at the decode boundaries (C3) -/

/-- C3 counterexample: a payload that is not valid JSON published to the
create control topic does NOT result in a logged drop with the state
unchanged — `JSON.parse` throws and no handler catches it (modelled as
`none`), so the handler produces no successor state at all. -/
theorem malformed_json_crash_cex :
    ¬ ∃ tr, ttyCreate ⟨"", "t"⟩ initTargetState WireMsg.invalid =
      some (initTargetState, tr) := by
  intro h
  obtain ⟨tr, h⟩ := h
  simp [ttyCreate, parseJson] at h

/-- C3 (amended): a control payload that is valid JSON but fails the
identifier-shape validation is dropped and logged with no state change
and no crash; a payload that is not valid JSON, however, raises an
uncaught exception out of the handler (process crash) at every decode
boundary — create, remove and the packet handler. -/
theorem malformed_input_amended (c : TargetCfg) (st : TargetState)
    (v : JValue) (sq : SeqState) (hv : validCtrl v = false) :
    ttyCreate c st (.value v) = some (st, [TAct.logError]) ∧
    ttyRemove c st (.value v) = some (st, [TAct.logError]) ∧
    ttyCreate c st .invalid = none ∧
    ttyRemove c st .invalid = none ∧
    wsOnMessage sq PacketMsg.invalid = none := by
  refine ⟨?_, ?_, rfl, rfl, rfl⟩
  · simp [ttyCreate, parseJson, hv]
  · simp [ttyRemove, parseJson, hv]

/-- Witness for the amended C3: an object whose id is present but not
pattern-matching fails validation and is dropped with the state intact. -/
theorem malformed_input_amended_witness :
    ttyCreate ⟨"", "t"⟩ initTargetState
        (.value (.jobj [("id", .jstr "xyz")])) =
      some (initTargetState, [TAct.logError]) ∧
    ttyRemove ⟨"", "t"⟩ initTargetState
        (.value (.jobj [("id", .jstr "xyz")])) =
      some (initTargetState, [TAct.logError]) ∧
    ttyCreate ⟨"", "t"⟩ initTargetState .invalid = none ∧
    ttyRemove ⟨"", "t"⟩ initTargetState .invalid = none ∧
    wsOnMessage initSeqState PacketMsg.invalid = none :=
  malformed_input_amended ⟨"", "t"⟩ initTargetState
    (.jobj [("id", .jstr "xyz")]) initSeqState (by decide)

/-! ### Broker (re)connect ordering (C8) -/

/-- Modelled from the spec: the claimed (re)connect behaviour — first
subscribe to base/create and base/remove, and only then publish the
membership list. -/
def onConnectSubscribesFirst : Prop :=
  ∀ (c : TargetCfg) (st : TargetState),
    (onConnect c st).2 =
      [TAct.subscribe (topicCreate c), TAct.subscribe (topicRemove c),
        TAct.publish (topicList c)
          (Payload.listIds (st.shells.map (fun e => e.1))) 1]

/-- C8 counterexample: the connect handler does not subscribe first; its
very first action is the list publish. -/
theorem connect_subscribes_first_cex : ¬ onConnectSubscribesFirst := by
  intro h
  have hc := h ⟨"", "t"⟩ initTargetState
  exact absurd hc (by decide)

/-- C8 (amended): on every (re)connection to the broker the target
controller first publishes the current membership list to base/list
(QoS 1) and only then subscribes to base/create and base/remove. -/
theorem connect_publishes_then_subscribes (c : TargetCfg) (st : TargetState) :
    (onConnect c st).2 =
      [TAct.publish (topicList c)
          (Payload.listIds (st.shells.map (fun e => e.1))) 1,
        TAct.subscribe (topicCreate c), TAct.subscribe (topicRemove c)] := rfl

/-! ### Master connection admission (C5) -/

/-- C5 counterexample: a target identifier that is not UUID-shaped (it
merely contains a UUID-shaped substring) is NOT rejected — the
connection proceeds to create a session, because the ajv pattern check
is unanchored. -/
theorem ws_connection_shape_cex :
    uuidShapedSpec "zz11111111-1111-1111-1111-111111111111zz" = false ∧
    wsConnection "" (some "zz11111111-1111-1111-1111-111111111111zz") "S" ≠
      [MAct.logError, MAct.close] := by
  constructor
  · decide
  · decide

/-- C5 (amended): the connection is rejected (logged and closed, with no
session id used, no create publish, no heartbeat, no subscription) iff
the target parameter is missing or the unanchored UUID-pattern search
fails on it; when the search succeeds — which includes identifiers that
are not UUID-shaped but contain a UUID-shaped substring — the session is
set up. -/
theorem ws_connection_target_check (pfx : String) (target? : Option String)
    (ttyId : String) :
    (validTarget target? = false →
      wsConnection pfx target? ttyId = [MAct.logError, MAct.close]) ∧
    (validTarget target? = true → ∃ t, target? = some t ∧
      wsConnection pfx target? ttyId =
        [MAct.logInfo,
          MAct.publish (topicCreate ⟨pfx, t⟩) (Payload.ctrl ttyId) 1,
          MAct.heartbeatStart,
          MAct.subscribe (topicTtyOut ⟨pfx, t⟩ ttyId),
          MAct.onMessageAdd]) := by
  cases target? with
  | none =>
    refine ⟨fun _ => rfl, fun h => ?_⟩
    simp [validTarget] at h
  | some t =>
    constructor
    · intro h
      simp only [validTarget] at h
      simp [wsConnection, h]
    · intro h
      simp only [validTarget] at h
      exact ⟨t, rfl, by simp [wsConnection, h]⟩

/-- Witness for the amended C5: a missing identifier is rejected, a
UUID identifier is admitted. -/
theorem ws_connection_target_check_witness :
    wsConnection "" none "S" = [MAct.logError, MAct.close] ∧
    ∃ t, (some "11111111-1111-1111-1111-111111111111" : Option String) =
        some t ∧
      wsConnection "" (some "11111111-1111-1111-1111-111111111111") "S" =
        [MAct.logInfo,
          MAct.publish (topicCreate ⟨"", t⟩) (Payload.ctrl "S") 1,
          MAct.heartbeatStart,
          MAct.subscribe (topicTtyOut ⟨"", t⟩ "S"),
          MAct.onMessageAdd] :=
  ⟨(ws_connection_target_check "" none "S").1 rfl,
    (ws_connection_target_check ""
      (some "11111111-1111-1111-1111-111111111111") "S").2 (by decide)⟩

/-! ### Topic namespace disjointness (C9) -/

lemma hexRun_length :
    ∀ (n : Nat) (l l' : List Char), hexRun n l = some l' →
      l.length = n + l'.length
  | 0, l, l', h => by
    simp only [hexRun, Option.some.injEq] at h
    subst h
    omega
  | n + 1, [], l', h => by simp [hexRun] at h
  | n + 1, c :: l, l', h => by
    simp only [hexRun] at h
    split at h
    · have := hexRun_length n l l' h
      simp only [List.length_cons]
      omega
    · simp at h

lemma hyphen_length {l l' : List Char} (h : hyphen l = some l') :
    l.length = 1 + l'.length := by
  unfold hyphen at h
  split at h
  · rw [Option.some.injEq] at h
    subst h
    simp only [List.length_cons]
    omega
  · simp at h

lemma uuidChain_length {l l' : List Char} (h : uuidChain l = some l') :
    l.length = 36 + l'.length := by
  unfold uuidChain at h
  obtain ⟨b1, hb1, hc1⟩ := Option.bind_eq_some.1 h
  obtain ⟨b2, hb2, hc2⟩ := Option.bind_eq_some.1 hb1
  obtain ⟨b3, hb3, hc3⟩ := Option.bind_eq_some.1 hb2
  obtain ⟨b4, hb4, hc4⟩ := Option.bind_eq_some.1 hb3
  obtain ⟨b5, hb5, hc5⟩ := Option.bind_eq_some.1 hb4
  obtain ⟨b6, hb6, hc6⟩ := Option.bind_eq_some.1 hb5
  obtain ⟨b7, hb7, hc7⟩ := Option.bind_eq_some.1 hb6
  obtain ⟨b8, hb8, hc8⟩ := Option.bind_eq_some.1 hb7
  have e1 := hexRun_length 8 l b8 hb8
  have e2 := hyphen_length hc8
  have e3 := hexRun_length 4 b7 b6 hc7
  have e4 := hyphen_length hc6
  have e5 := hexRun_length 4 b5 b4 hc5
  have e6 := hyphen_length hc4
  have e7 := hexRun_length 4 b3 b2 hc3
  have e8 := hyphen_length hc2
  have e9 := hexRun_length 12 b1 l' hc1
  omega

lemma uuidShapedSpec_length {s : String} (h : uuidShapedSpec s = true) :
    s.data.length = 36 := by
  unfold uuidShapedSpec at h
  cases hc : uuidChain s.data with
  | none => rw [hc] at h; simp at h
  | some l =>
    rw [hc] at h
    cases l with
    | nil =>
      have := uuidChain_length hc
      simpa using this
    | cons a t => simp at h

lemma take36_of_length {t : List Char} (ht : t.length = 36) : t.take 36 = t := by
  rw [← ht]
  exact List.take_length t

lemma drop_take_end (p t : List Char) (ht : t.length = 36) :
    ((p ++ t).drop p.length).take 36 = t := by
  rw [List.drop_left, take36_of_length ht]

lemma drop_take_mid (p t r : List Char) (ht : t.length = 36) :
    ((p ++ (t ++ r)).drop p.length).take 36 = t := by
  rw [List.drop_left, ← ht, List.take_left]

lemma topicsOf_extract (P T S : String) (hT : T.data.length = 36) :
    ∀ x ∈ topicsOf P T S, (x.data.drop P.data.length).take 36 = T.data := by
  intro x hx
  simp only [topicsOf, List.mem_cons, List.not_mem_nil, or_false] at hx
  rcases hx with rfl | rfl | rfl | rfl | rfl | rfl
  all_goals simp only [topicBase, topicList, topicCreate, topicRemove,
    topicTty, topicTtyIn, topicTtyOut, String.data_append, List.append_assoc]
  · exact drop_take_end P.data T.data hT
  · exact drop_take_mid P.data T.data _ hT
  · exact drop_take_mid P.data T.data _ hT
  · exact drop_take_mid P.data T.data _ hT
  · exact drop_take_mid P.data T.data _ hT
  · exact drop_take_mid P.data T.data _ hT

lemma session_extract_in (P T S : String) (hT : T.data.length = 36)
    (hS : S.data.length = 36) :
    ((topicTtyIn ⟨P, T⟩ S).data.drop (P.data.length + 37)).take 36 = S.data := by
  have hshape : (topicTtyIn ⟨P, T⟩ S).data =
      (P.data ++ (T.data ++ ("/" : String).data)) ++
        (S.data ++ ("/in" : String).data) := by
    simp [topicTtyIn, topicTty, topicBase, String.data_append, List.append_assoc]
  have hlen : (P.data ++ (T.data ++ ("/" : String).data)).length =
      P.data.length + 37 := by
    simp only [List.length_append, hT,
      show ("/" : String).data.length = 1 from rfl]
  rw [hshape, ← hlen, List.drop_left, ← hS, List.take_left]

lemma session_extract_out (P T S : String) (hT : T.data.length = 36)
    (hS : S.data.length = 36) :
    ((topicTtyOut ⟨P, T⟩ S).data.drop (P.data.length + 37)).take 36 = S.data := by
  have hshape : (topicTtyOut ⟨P, T⟩ S).data =
      (P.data ++ (T.data ++ ("/" : String).data)) ++
        (S.data ++ ("/out" : String).data) := by
    simp [topicTtyOut, topicTty, topicBase, String.data_append, List.append_assoc]
  have hlen : (P.data ++ (T.data ++ ("/" : String).data)).length =
      P.data.length + 37 := by
    simp only [List.length_append, hT,
      show ("/" : String).data.length = 1 from rfl]
  rw [hshape, ← hlen, List.drop_left, ← hS, List.take_left]

lemma topicTtyIn_data_length (P T S : String) (hT : T.data.length = 36)
    (hS : S.data.length = 36) :
    (topicTtyIn ⟨P, T⟩ S).data.length = P.data.length + 76 := by
  simp only [topicTtyIn, topicTty, topicBase, String.data_append,
    List.length_append, hT, hS, show ("/" : String).data.length = 1 from rfl,
    show ("/in" : String).data.length = 3 from rfl]

lemma topicTtyOut_data_length (P T S : String) (hT : T.data.length = 36)
    (hS : S.data.length = 36) :
    (topicTtyOut ⟨P, T⟩ S).data.length = P.data.length + 77 := by
  simp only [topicTtyOut, topicTty, topicBase, String.data_append,
    List.length_append, hT, hS, show ("/" : String).data.length = 1 from rfl,
    show ("/out" : String).data.length = 4 from rfl]

/-- C9 counterexample: two distinct UUID-shaped (targetId, sessionId)
pairs sharing the target produce overlapping topic sets — the base topic
(and all control topics) belong to both. -/
theorem topic_sets_shared_base_cex :
    topicBase ⟨"", "00000000-0000-0000-0000-000000000000"⟩ ∈
        topicsOf "" "00000000-0000-0000-0000-000000000000"
          "11111111-1111-1111-1111-111111111111" ∧
    topicBase ⟨"", "00000000-0000-0000-0000-000000000000"⟩ ∈
        topicsOf "" "00000000-0000-0000-0000-000000000000"
          "22222222-2222-2222-2222-222222222222" ∧
    ("00000000-0000-0000-0000-000000000000",
        "11111111-1111-1111-1111-111111111111") ≠
      (("00000000-0000-0000-0000-000000000000",
        "22222222-2222-2222-2222-222222222222") : String × String) ∧
    uuidShapedSpec "00000000-0000-0000-0000-000000000000" = true ∧
    uuidShapedSpec "11111111-1111-1111-1111-111111111111" = true ∧
    uuidShapedSpec "22222222-2222-2222-2222-222222222222" = true := by
  refine ⟨by decide, by decide, by decide, by decide, by decide, by decide⟩

/-- C9 (amended): for two distinct UUID-shaped (targetId, sessionId)
pairs under a fixed prefix, the per-session data topics (base/S/in,
base/S/out) never collide; the FULL six-topic sets are disjoint exactly
when the target identifiers differ — pairs sharing a target share the
base and control topics. -/
theorem topic_sets_disjoint_amended (P T1 S1 T2 S2 : String)
    (hT1 : uuidShapedSpec T1 = true) (hS1 : uuidShapedSpec S1 = true)
    (hT2 : uuidShapedSpec T2 = true) (hS2 : uuidShapedSpec S2 = true)
    (hne : (T1, S1) ≠ (T2, S2)) :
    (∀ x ∈ [topicTtyIn ⟨P, T1⟩ S1, topicTtyOut ⟨P, T1⟩ S1],
        x ∉ [topicTtyIn ⟨P, T2⟩ S2, topicTtyOut ⟨P, T2⟩ S2]) ∧
    (T1 ≠ T2 → ∀ x ∈ topicsOf P T1 S1, x ∉ topicsOf P T2 S2) := by
  have hlT1 := uuidShapedSpec_length hT1
  have hlS1 := uuidShapedSpec_length hS1
  have hlT2 := uuidShapedSpec_length hT2
  have hlS2 := uuidShapedSpec_length hS2
  constructor
  · intro x hx1 hx2
    simp only [List.mem_cons, List.not_mem_nil, or_false] at hx1 hx2
    have hTfromIn : topicTtyIn ⟨P, T1⟩ S1 = topicTtyIn ⟨P, T2⟩ S2 → T1 = T2 := by
      intro heq
      apply String.ext
      have e1 := topicsOf_extract P T1 S1 hlT1 (topicTtyIn ⟨P, T1⟩ S1)
        (by simp [topicsOf])
      have e2 := topicsOf_extract P T2 S2 hlT2 (topicTtyIn ⟨P, T2⟩ S2)
        (by simp [topicsOf])
      rw [← e1, heq, e2]
    have hTfromOut : topicTtyOut ⟨P, T1⟩ S1 = topicTtyOut ⟨P, T2⟩ S2 →
        T1 = T2 := by
      intro heq
      apply String.ext
      have e1 := topicsOf_extract P T1 S1 hlT1 (topicTtyOut ⟨P, T1⟩ S1)
        (by simp [topicsOf])
      have e2 := topicsOf_extract P T2 S2 hlT2 (topicTtyOut ⟨P, T2⟩ S2)
        (by simp [topicsOf])
      rw [← e1, heq, e2]
    rcases hx1 with rfl | rfl <;> rcases hx2 with heq | heq
    · have hT := hTfromIn heq
      have hS : S1 = S2 := by
        apply String.ext
        have e1 := session_extract_in P T1 S1 hlT1 hlS1
        have e2 := session_extract_in P T2 S2 hlT2 hlS2
        rw [← e1, heq, e2]
      exact hne (by rw [hT, hS])
    · have l1 := topicTtyIn_data_length P T1 S1 hlT1 hlS1
      have l2 := topicTtyOut_data_length P T2 S2 hlT2 hlS2
      rw [heq] at l1
      omega
    · have l1 := topicTtyOut_data_length P T1 S1 hlT1 hlS1
      have l2 := topicTtyIn_data_length P T2 S2 hlT2 hlS2
      rw [heq] at l1
      omega
    · have hT := hTfromOut heq
      have hS : S1 = S2 := by
        apply String.ext
        have e1 := session_extract_out P T1 S1 hlT1 hlS1
        have e2 := session_extract_out P T2 S2 hlT2 hlS2
        rw [← e1, heq, e2]
      exact hne (by rw [hT, hS])
  · intro hTne x hx1 hx2
    have e1 := topicsOf_extract P T1 S1 hlT1 x hx1
    have e2 := topicsOf_extract P T2 S2 hlT2 x hx2
    exact hTne (String.ext (by rw [← e1, e2]))

/-- Witness for the amended C9: the two distinct pairs of the
counterexample, whose session data topics are indeed disjoint. -/
theorem topic_sets_disjoint_amended_witness :
    (∀ x ∈ [topicTtyIn ⟨"", "00000000-0000-0000-0000-000000000000"⟩
          "11111111-1111-1111-1111-111111111111",
        topicTtyOut ⟨"", "00000000-0000-0000-0000-000000000000"⟩
          "11111111-1111-1111-1111-111111111111"],
        x ∉ [topicTtyIn ⟨"", "00000000-0000-0000-0000-000000000000"⟩
          "22222222-2222-2222-2222-222222222222",
        topicTtyOut ⟨"", "00000000-0000-0000-0000-000000000000"⟩
          "22222222-2222-2222-2222-222222222222"]) ∧
    ("00000000-0000-0000-0000-000000000000" ≠
        "00000000-0000-0000-0000-000000000000" →
      ∀ x ∈ topicsOf "" "00000000-0000-0000-0000-000000000000"
          "11111111-1111-1111-1111-111111111111",
        x ∉ topicsOf "" "00000000-0000-0000-0000-000000000000"
          "22222222-2222-2222-2222-222222222222") :=
  topic_sets_disjoint_amended "" "00000000-0000-0000-0000-000000000000"
    "11111111-1111-1111-1111-111111111111"
    "00000000-0000-0000-0000-000000000000"
    "22222222-2222-2222-2222-222222222222"
    (by decide) (by decide) (by decide) (by decide) (by decide)

end MqttShell
